import Mathlib

/-!
Verification of the rule-based scholarship advisory core (`LR3_RBS.py`).

The core consists of two functions:

* `eval_condition value op target` — evaluates a single comparison,
  returning `False` on any exception (type mismatch) or unsupported
  operator;
* `evaluate_rules applicant rules` — collects every rule whose conditions
  all hold, stable-sorts them by priority descending, and returns the
  winning rule's action (or a `NO_MATCH` default) together with the sorted
  matched list.

Shallow embedding choices:

* Python scalar values are modelled by `Value`: numbers as `ℚ` (the form
  supplies finite decimal floats and ints; their ordering and equality
  coincide with the rational ones on this data) and strings as `String`
  compared by code points (`String.data`, exactly Python's string order).
* A Python `dict` applicant is an association list `List (String × Value)`
  with first-match lookup.
* A rule dict is a structure with `Option` fields for the keys the code
  accesses via `.get` (`priority`, `conditions`) or via indexing
  (`action`, whose absence raises `KeyError`); a condition is a raw
  `List Value`, since tuple unpacking `field, op, target = cond` raises
  `ValueError` when the arity is not 3.
* Raised exceptions are modelled by `Except String`; `evaluate_rules`
  returns `Except String (Action × List Rule)`.
* Python's `sorted(·, key=priority, reverse=True)` — a stable sort by
  priority descending — is modelled by the stable insertion sort
  `sortByPriorityDesc`, proved below to be a sorted, stable permutation.
-/

namespace RBS

/-- A Python scalar value as used by the rule engine: a number (int or
float, modelled as `ℚ`) or a string. -/
inductive Value where
  | num (q : ℚ)
  | str (s : String)
deriving DecidableEq, Repr

/-- An applicant mapping (Python `Dict[str, Any]`), as an association
list with first-match lookup. -/
abbrev Applicant := List (String × Value)

/-- First-match association-list lookup, the embedding of `applicant[field]`
(and `field in applicant`). -/
def lookupA (a : Applicant) (field : String) : Option Value :=
  match a with
  | [] => none
  | (k, v) :: rest => if k = field then some v else lookupA rest field

/-- An action dict `{"decision": ..., "reason": ...}`. -/
structure Action where
  decision : String
  reason : String
deriving DecidableEq, Repr

/-- A rule dict. `priority` and `conditions` are read with `.get` (optional
with defaults); `action` is read by indexing, so a missing key raises. -/
structure Rule where
  name : String
  priority : Option Int
  conditions : Option (List (List Value))
  action : Option Action
deriving DecidableEq, Repr

/-- Python ordering comparison `a < b` between two values: defined for
number/number and string/string (code-point lexicographic), a `TypeError`
(here `none`) otherwise. -/
def pyCmpLt : Value → Value → Option Bool
  | .num a, .num b => some (decide (a < b))
  | .str a, .str b => some (decide (a.data < b.data))
  | _, _ => none

/-- Embedding of `eval_condition(value, op, target)` from the source: dispatch on the five
supported operator strings; an incomparable pair (the `except` branch) or an
unsupported operator returns `false`. `a >= b` is `¬ a < b` and `a <= b` is
`¬ b < a`, as for Python's total orders on numbers and strings. -/
def eval_condition (value : Value) (op : String) (target : Value) : Bool :=
  if op = ">=" then
    match pyCmpLt value target with
    | some b => !b
    | none => false
  else if op = "<=" then
    match pyCmpLt target value with
    | some b => !b
    | none => false
  else if op = ">" then
    match pyCmpLt target value with
    | some b => b
    | none => false
  else if op = "<" then
    match pyCmpLt value target with
    | some b => b
    | none => false
  else if op = "==" then
    decide (value = target)
  else
    false

/-- Variant of `eval_condition` as called from `evaluate_rules`, where the unpacked
operator is an arbitrary value: a non-string operator matches none of the
five operator strings, so the function returns `false`. -/
def eval_condition_dyn (value : Value) (op : Value) (target : Value) : Bool :=
  match op with
  | .str s => eval_condition value s target
  | _ => false

/-- Whether a single raw condition holds against an applicant: it must be a
triple `[field, op, target]` with a string field present in the applicant
whose value satisfies the comparison. (Used to state specifications; the
executable loop is `eval_conds`.) -/
def cond_true (a : Applicant) (c : List Value) : Bool :=
  match c with
  | [field, opv, target] =>
    match field with
    | .str f =>
      match lookupA a f with
      | some v => eval_condition_dyn v opv target
      | none => false
    | _ => false
  | _ => false

/-- The inner loop of `evaluate_rules` over one rule's condition list:
unpack each condition (raising `ValueError` on wrong arity), fail the rule
on a missing field, otherwise delegate to `eval_condition`; short-circuit
on the first failed condition. -/
def eval_conds (a : Applicant) : List (List Value) → Except String Bool
  | [] => .ok true
  | c :: rest =>
    match c with
    | [field, opv, target] =>
      match field with
      | .str f =>
        match lookupA a f with
        | some v =>
          if eval_condition_dyn v opv target then eval_conds a rest
          else .ok false
        | none => .ok false
      | _ => .ok false
    | _ => .error "ValueError: cannot unpack condition"

/-- Embedding of `rule.get("conditions", [])`. -/
def getConditions (r : Rule) : List (List Value) :=
  r.conditions.getD []

/-- Embedding of `rule.get("priority", 0)`, the sort key. -/
def getPriority (r : Rule) : Int :=
  r.priority.getD 0

/-- Whether a rule is matched by the applicant: all its conditions hold
(an empty or absent condition list trivially matches). -/
def ruleMatchesB (a : Applicant) (r : Rule) : Bool :=
  (getConditions r).all (cond_true a)

/-- The `matched` accumulation loop of `evaluate_rules`: every rule is
evaluated (an exception from any rule's conditions propagates). -/
def collect_matched (a : Applicant) : List Rule → Except String (List Rule)
  | [] => .ok []
  | r :: rest =>
    match eval_conds a (getConditions r) with
    | .error e => .error e
    | .ok b =>
      match collect_matched a rest with
      | .error e => .error e
      | .ok m => .ok (if b then r :: m else m)

/-- Insert a rule into a priority-descending sorted list, after every
element of strictly greater priority and before equal-priority elements
(the new element comes from earlier in the input, so this is the stable
placement). -/
def insertDesc (r : Rule) : List Rule → List Rule
  | [] => [r]
  | x :: xs =>
    if getPriority r < getPriority x then x :: insertDesc r xs
    else r :: x :: xs

/-- The embedding of `sorted(matched, key=lambda r: r.get("priority", 0),
reverse=True)`: a stable sort by priority descending. -/
def sortByPriorityDesc : List Rule → List Rule
  | [] => []
  | x :: xs => insertDesc x (sortByPriorityDesc xs)

/-- The synthetic default action returned when no rule matches. -/
def noMatchAction : Action :=
  { decision := "NO_MATCH"
    reason := "No rule matched. Candidate requires manual review or different policy." }

/-- Embedding of `evaluate_rules(applicant, rules)` from the source: collect matched
rules, sort by priority descending, and select the first sorted rule's
action (`matched_sorted[0]["action"]`, a `KeyError` if that rule has no
action) or the `NO_MATCH` default. -/
def evaluate_rules (a : Applicant) (rules : List Rule) :
    Except String (Action × List Rule) :=
  match collect_matched a rules with
  | .error e => .error e
  | .ok matched =>
    match sortByPriorityDesc matched with
    | first :: rest =>
      match first.action with
      | some act => .ok (act, first :: rest)
      | none => .error "KeyError: action"
    | [] => .ok (noMatchAction, [])

/-! The embedded rule set `RULES` (parsed from `RULES_JSON`). -/

/-- Rule 1 of `RULES_JSON`. -/
def ruleTopMerit : Rule :=
  { name := "Top merit candidate"
    priority := some 100
    conditions := some
      [ [.str "cgpa", .str ">=", .num (mkRat 37 10)],
        [.str "co_curricular_score", .str ">=", .num 80],
        [.str "family_income", .str "<=", .num 8000],
        [.str "disciplinary_actions", .str "==", .num 0] ]
    action := some
      { decision := "AWARD_FULL"
        reason := "Excellent academic & co-curricular performance, with acceptable need" } }

/-- Rule 2 of `RULES_JSON`. -/
def ruleGoodCandidate : Rule :=
  { name := "Good candidate - partial scholarship"
    priority := some 80
    conditions := some
      [ [.str "cgpa", .str ">=", .num (mkRat 33 10)],
        [.str "co_curricular_score", .str ">=", .num 60],
        [.str "family_income", .str "<=", .num 12000],
        [.str "disciplinary_actions", .str "<=", .num 1] ]
    action := some
      { decision := "AWARD_PARTIAL"
        reason := "Good academic & involvement record with moderate need" } }

/-- Rule 3 of `RULES_JSON`. -/
def ruleNeedBased : Rule :=
  { name := "Need-based review"
    priority := some 70
    conditions := some
      [ [.str "cgpa", .str ">=", .num (mkRat 25 10)],
        [.str "family_income", .str "<=", .num 4000] ]
    action := some
      { decision := "REVIEW"
        reason := "High need but borderline academic score" } }

/-- Rule 4 of `RULES_JSON`. -/
def ruleLowCgpa : Rule :=
  { name := "Low CGPA – not eligible"
    priority := some 95
    conditions := some
      [ [.str "cgpa", .str "<", .num (mkRat 25 10)] ]
    action := some
      { decision := "REJECT"
        reason := "CGPA below minimum scholarship requirement" } }

/-- Rule 5 of `RULES_JSON`. -/
def ruleDisciplinary : Rule :=
  { name := "Serious disciplinary record"
    priority := some 90
    conditions := some
      [ [.str "disciplinary_actions", .str ">=", .num 2] ]
    action := some
      { decision := "REJECT"
        reason := "Too many disciplinary records" } }

/-- Embedding of `RULES = json.loads(RULES_JSON)`. -/
def RULES : List Rule :=
  [ruleTopMerit, ruleGoodCandidate, ruleNeedBased, ruleLowCgpa, ruleDisciplinary]

/-! ### Properties of the condition loop -/

/-- If the condition loop finishes without an exception, its boolean is
exactly the conjunction of `cond_true` over the condition list. -/
theorem eval_conds_ok (a : Applicant) :
    ∀ (cs : List (List Value)) (b : Bool),
      eval_conds a cs = Except.ok b → b = cs.all (cond_true a) := by
  intro cs
  induction cs with
  | nil =>
    intro b h
    simp [eval_conds] at h
    simp [h]
  | cons c rest ih =>
    intro b h
    rcases c with _ | ⟨f, c1⟩
    · simp [eval_conds] at h
    rcases c1 with _ | ⟨o, c2⟩
    · simp [eval_conds] at h
    rcases c2 with _ | ⟨t, c3⟩
    · simp [eval_conds] at h
    rcases c3 with _ | ⟨x, c4⟩
    · rcases f with q | fs
      · simp [eval_conds] at h
        simp [cond_true, ← h]
      · rcases hl : lookupA a fs with _ | v
        · simp [eval_conds, hl] at h
          simp [cond_true, hl, ← h]
        · rcases he : eval_condition_dyn v o t with _ | _
          · simp [eval_conds, hl, he] at h
            simp [cond_true, hl, he, ← h]
          · simp [eval_conds, hl, he] at h
            simp [cond_true, hl, he, ih b h]
    · simp [eval_conds] at h

/-- On well-formed (arity-3) condition lists the loop never raises and
computes the conjunction of `cond_true`. -/
theorem eval_conds_total (a : Applicant) :
    ∀ cs : List (List Value), (∀ c ∈ cs, c.length = 3) →
      eval_conds a cs = Except.ok (cs.all (cond_true a)) := by
  intro cs
  induction cs with
  | nil => intro _; rfl
  | cons c rest ih =>
    intro h
    have hlen : c.length = 3 := h c (List.mem_cons_self c rest)
    have hrest : ∀ c' ∈ rest, c'.length = 3 :=
      fun c' hc' => h c' (List.mem_cons_of_mem c hc')
    rcases c with _ | ⟨f, c1⟩
    · simp at hlen
    rcases c1 with _ | ⟨o, c2⟩
    · simp at hlen
    rcases c2 with _ | ⟨t, c3⟩
    · simp at hlen
    rcases c3 with _ | ⟨x, c4⟩
    · rcases f with q | fs
      · simp [eval_conds, cond_true]
      · rcases hl : lookupA a fs with _ | v
        · simp [eval_conds, cond_true, hl]
        · rcases he : eval_condition_dyn v o t with _ | _
          · simp [eval_conds, cond_true, hl, he]
          · simp [eval_conds, cond_true, hl, he, ih hrest]
    · simp at hlen

/-! ### Properties of the matched-rule collection -/

/-- If the collection loop finishes without an exception, the matched list
is exactly the input filtered by `ruleMatchesB`, in input order. -/
theorem collect_matched_ok (a : Applicant) :
    ∀ (rules m : List Rule), collect_matched a rules = Except.ok m →
      m = rules.filter (ruleMatchesB a) := by
  intro rules
  induction rules with
  | nil =>
    intro m h
    simp [collect_matched] at h
    simp [h]
  | cons r rest ih =>
    intro m h
    unfold collect_matched at h
    rcases he : eval_conds a (getConditions r) with e | b
    · rw [he] at h; exact absurd h (by simp)
    · rw [he] at h
      rcases hc : collect_matched a rest with e | m'
      · rw [hc] at h; exact absurd h (by simp)
      · rw [hc] at h
        simp only [Except.ok.injEq] at h
        have hb : ruleMatchesB a r = b := (eval_conds_ok a _ b he).symm
        rw [List.filter_cons, hb, ← ih m' hc, ← h]

/-- On rule collections whose conditions all have arity 3, the collection
loop never raises. -/
theorem collect_matched_total (a : Applicant) :
    ∀ rules : List Rule, (∀ r ∈ rules, ∀ c ∈ getConditions r, c.length = 3) →
      collect_matched a rules = Except.ok (rules.filter (ruleMatchesB a)) := by
  intro rules
  induction rules with
  | nil => intro _; rfl
  | cons r rest ih =>
    intro h
    have hr := eval_conds_total a (getConditions r) (h r (List.mem_cons_self r rest))
    have hrest := ih fun r' hr' => h r' (List.mem_cons_of_mem r hr')
    unfold collect_matched
    rw [hr, hrest, List.filter_cons]
    unfold ruleMatchesB
    cases hb : (getConditions r).all (cond_true a) <;> simp [hb]

/-! ### The stable descending sort -/

/-- Inserting is a permutation of consing. -/
theorem insertDesc_perm (r : Rule) :
    ∀ l : List Rule, (insertDesc r l).Perm (r :: l) := by
  intro l
  induction l with
  | nil => exact List.Perm.refl _
  | cons x xs ih =>
    unfold insertDesc
    by_cases h : getPriority r < getPriority x
    · rw [if_pos h]
      exact (ih.cons x).trans (List.Perm.swap r x xs)
    · rw [if_neg h]

/-- The sort is a permutation of its input. -/
theorem sortByPriorityDesc_perm :
    ∀ l : List Rule, (sortByPriorityDesc l).Perm l := by
  intro l
  induction l with
  | nil => exact List.Perm.refl _
  | cons x xs ih =>
    exact (insertDesc_perm x (sortByPriorityDesc xs)).trans (ih.cons x)

/-- Inserting into a priority-descending list keeps it descending. -/
theorem insertDesc_sorted (r : Rule) :
    ∀ l : List Rule,
      l.Pairwise (fun x y => getPriority y ≤ getPriority x) →
      (insertDesc r l).Pairwise (fun x y => getPriority y ≤ getPriority x) := by
  intro l
  induction l with
  | nil => intro _; simp [insertDesc]
  | cons x xs ih =>
    intro hl
    rcases List.pairwise_cons.mp hl with ⟨hx, hxs⟩
    unfold insertDesc
    by_cases h : getPriority r < getPriority x
    · rw [if_pos h]
      refine List.pairwise_cons.mpr ⟨?_, ih hxs⟩
      intro y hy
      rcases List.mem_cons.mp ((insertDesc_perm r xs).subset hy) with rfl | hy2
      · exact le_of_lt h
      · exact hx y hy2
    · rw [if_neg h]
      have hxr : getPriority x ≤ getPriority r := le_of_not_lt h
      refine List.pairwise_cons.mpr ⟨?_, hl⟩
      intro y hy
      rcases List.mem_cons.mp hy with rfl | hy2
      · exact hxr
      · exact (hx y hy2).trans hxr

/-- The sort output is priority-descending. -/
theorem sortByPriorityDesc_sorted :
    ∀ l : List Rule,
      (sortByPriorityDesc l).Pairwise (fun x y => getPriority y ≤ getPriority x) := by
  intro l
  induction l with
  | nil => simp [sortByPriorityDesc]
  | cons x xs ih => exact insertDesc_sorted x _ ih

/-- Stability of insertion, phrased through filters: restricted to any one
priority `k`, inserting behaves exactly like consing. -/
theorem insertDesc_filter (r : Rule) (k : Int) :
    ∀ l : List Rule,
      (insertDesc r l).filter (fun x => decide (getPriority x = k)) =
        (r :: l).filter (fun x => decide (getPriority x = k)) := by
  intro l
  induction l with
  | nil => rfl
  | cons x xs ih =>
    unfold insertDesc
    by_cases h : getPriority r < getPriority x
    · rw [if_pos h]
      by_cases hr : getPriority r = k
      · have hx : ¬ getPriority x = k := by omega
        simp only [List.filter_cons, hr, hx, decide_True, decide_False, ih,
          if_true, if_false]
        simp [hx]
      · simp only [List.filter_cons, ih]
        simp [hr]
    · rw [if_neg h]

/-- Stability of the sort: restricted to any one priority `k`, sorting is
the identity, i.e. equal-priority elements keep their input order. -/
theorem sortByPriorityDesc_filter (k : Int) :
    ∀ l : List Rule,
      (sortByPriorityDesc l).filter (fun x => decide (getPriority x = k)) =
        l.filter (fun x => decide (getPriority x = k)) := by
  intro l
  induction l with
  | nil => rfl
  | cons x xs ih =>
    rw [show sortByPriorityDesc (x :: xs) = insertDesc x (sortByPriorityDesc xs) from rfl,
      insertDesc_filter, List.filter_cons, List.filter_cons, ih]

/-! ### Characterization of a successful evaluation -/

/-- A successful `evaluate_rules` run returns the stable descending sort of
the input rules filtered by `ruleMatchesB`; the action is the `NO_MATCH`
default when the matched list is empty, and the first sorted rule's action
otherwise. -/
theorem evaluate_rules_ok (a : Applicant) (rules : List Rule)
    (act : Action) (m : List Rule)
    (h : evaluate_rules a rules = Except.ok (act, m)) :
    m = sortByPriorityDesc (rules.filter (ruleMatchesB a)) ∧
    (m = [] → act = noMatchAction) ∧
    (∀ first rest, m = first :: rest → first.action = some act) := by
  unfold evaluate_rules at h
  split at h
  · exact absurd h (by simp)
  rename_i matched hc
  have hm := collect_matched_ok a rules matched hc
  subst hm
  split at h
  · rename_i first rest hsort
    split at h
    · rename_i act1 hact
      simp only [Except.ok.injEq, Prod.mk.injEq] at h
      obtain ⟨hact1, hm⟩ := h
      subst hact1
      refine ⟨hm.symm.trans hsort.symm, ?_, ?_⟩
      · intro hnil
        rw [← hm] at hnil
        exact absurd hnil (by simp)
      · intro f r hfr
        rw [← hm] at hfr
        obtain ⟨hf, _⟩ := List.cons.injEq _ _ _ _ ▸ hfr
        rw [hf] at hact
        exact hact
    · exact absurd h (by simp)
  · rename_i hsort
    simp only [Except.ok.injEq, Prod.mk.injEq] at h
    obtain ⟨hact, hm⟩ := h
    refine ⟨hm.symm.trans hsort.symm, fun _ => hact.symm, ?_⟩
    intro f r hfr
    rw [← hm] at hfr
    exact absurd hfr (by simp)

/-- If every rule's condition loop returns `false`, nothing is collected. -/
theorem collect_matched_none (a : Applicant) :
    ∀ rules : List Rule,
      (∀ r ∈ rules, eval_conds a (getConditions r) = Except.ok false) →
      collect_matched a rules = Except.ok [] := by
  intro rules
  induction rules with
  | nil => intro _; rfl
  | cons r rest ih =>
    intro h
    unfold collect_matched
    rw [h r (List.mem_cons_self r rest),
      ih fun r' hr' => h r' (List.mem_cons_of_mem r hr')]
    rfl

/-! ### Concrete inputs used by the claim witnesses -/

/-- A concrete applicant matching the two REJECT rules (priorities 95, 90). -/
def applicantReject : Applicant :=
  [("cgpa", Value.num 2), ("disciplinary_actions", Value.num 3)]

/-- Scenario 6 of the spec: an applicant matching no rule. -/
def applicantNone : Applicant :=
  [("cgpa", Value.num 3), ("co_curricular_score", Value.num 30),
   ("family_income", Value.num 9000), ("disciplinary_actions", Value.num 0)]

/-- Scenario 5 of the spec: `{cgpa: 3.9, co_curricular_score: 90,
family_income: 3000, disciplinary_actions: 0}`. -/
def applicantScenario5 : Applicant :=
  [("cgpa", Value.num (mkRat 39 10)), ("co_curricular_score", Value.num 90),
   ("family_income", Value.num 3000), ("disciplinary_actions", Value.num 0)]

/-! ### The claims -/

/-- Claim C1: in an exception-free evaluation, a rule is counted as matched
(is in `matchedRules`) iff it is in the collection and every condition in
its condition list evaluates true against the applicant; a rule whose
conditions list is empty, or absent (defaulting to the empty list), always
matches. -/
theorem C1_match_iff_all_conditions (a : Applicant) (rules : List Rule)
    (act : Action) (m : List Rule) (r : Rule)
    (h : evaluate_rules a rules = Except.ok (act, m)) :
    (r ∈ m ↔ r ∈ rules ∧ ∀ c ∈ getConditions r, cond_true a c = true) ∧
    (r.conditions = none ∨ r.conditions = some [] → ruleMatchesB a r = true) := by
  obtain ⟨hm, -, -⟩ := evaluate_rules_ok a rules act m h
  constructor
  · rw [hm, (sortByPriorityDesc_perm _).mem_iff, List.mem_filter]
    simp [ruleMatchesB, List.all_eq_true]
  · rintro (hc | hc) <;> simp [ruleMatchesB, getConditions, hc]

/-- Witness for C1: the REJECT applicant against the embedded rule set,
with the "Low CGPA" rule. -/
theorem C1_match_iff_all_conditions_witness :
    (ruleLowCgpa ∈ [ruleLowCgpa, ruleDisciplinary] ↔
      ruleLowCgpa ∈ RULES ∧
        ∀ c ∈ getConditions ruleLowCgpa, cond_true applicantReject c = true) ∧
    (ruleLowCgpa.conditions = none ∨ ruleLowCgpa.conditions = some [] →
      ruleMatchesB applicantReject ruleLowCgpa = true) :=
  C1_match_iff_all_conditions applicantReject RULES
    (Action.mk "REJECT" "CGPA below minimum scholarship requirement")
    [ruleLowCgpa, ruleDisciplinary] ruleLowCgpa rfl

/-- Claim C3: in an exception-free evaluation, `matchedRules` is sorted by
priority descending (absent priority sorting as 0, which `getPriority`
encodes), and when non-empty the selected action is exactly the action of
its first element. -/
theorem C3_sorted_desc_and_first_selected (a : Applicant) (rules : List Rule)
    (act : Action) (m : List Rule)
    (h : evaluate_rules a rules = Except.ok (act, m)) :
    m.Pairwise (fun x y => getPriority y ≤ getPriority x) ∧
    (∀ first rest, m = first :: rest → first.action = some act) := by
  obtain ⟨hm, -, hsel⟩ := evaluate_rules_ok a rules act m h
  exact ⟨hm ▸ sortByPriorityDesc_sorted _, hsel⟩

/-- Witness for C3: the REJECT applicant against the embedded rule set. -/
theorem C3_sorted_desc_and_first_selected_witness :
    ([ruleLowCgpa, ruleDisciplinary] : List Rule).Pairwise
      (fun x y => getPriority y ≤ getPriority x) ∧
    (∀ first rest, ([ruleLowCgpa, ruleDisciplinary] : List Rule) = first :: rest →
      first.action =
        some (Action.mk "REJECT" "CGPA below minimum scholarship requirement")) :=
  C3_sorted_desc_and_first_selected applicantReject RULES
    (Action.mk "REJECT" "CGPA below minimum scholarship requirement")
    [ruleLowCgpa, ruleDisciplinary] rfl

/-- Claim C5: in an exception-free evaluation, `matchedRules` is the full set
of satisfied rules (a permutation of the input filtered by rule match), not
just the winner: every rule of the collection whose conditions all hold is
in it, independently of earlier rules having matched. -/
theorem C5_matched_complete (a : Applicant) (rules : List Rule)
    (act : Action) (m : List Rule)
    (h : evaluate_rules a rules = Except.ok (act, m)) :
    m.Perm (rules.filter (ruleMatchesB a)) ∧
    ∀ r ∈ rules, ruleMatchesB a r = true → r ∈ m := by
  obtain ⟨hm, -, -⟩ := evaluate_rules_ok a rules act m h
  have hperm : m.Perm (rules.filter (ruleMatchesB a)) := hm ▸ sortByPriorityDesc_perm _
  exact ⟨hperm, fun r hr hmatch => hperm.mem_iff.mpr (List.mem_filter.mpr ⟨hr, hmatch⟩)⟩

/-- Witness for C5: the REJECT applicant; both REJECT rules are reported,
not only the priority-95 winner. -/
theorem C5_matched_complete_witness :
    ([ruleLowCgpa, ruleDisciplinary] : List Rule).Perm
      (RULES.filter (ruleMatchesB applicantReject)) ∧
    ∀ r ∈ RULES, ruleMatchesB applicantReject r = true →
      r ∈ ([ruleLowCgpa, ruleDisciplinary] : List Rule) :=
  C5_matched_complete applicantReject RULES
    (Action.mk "REJECT" "CGPA below minimum scholarship requirement")
    [ruleLowCgpa, ruleDisciplinary] rfl

/-- Claim C10: in an exception-free evaluation, `matchedRules` is a
priority-sorted permutation of a sub-list of the input collection (so each
input rule occurs at most as often as in the input); an empty rule
collection yields the `NO_MATCH` default and an empty matched list. -/
theorem C10_matched_subcollection (a : Applicant) (rules : List Rule)
    (act : Action) (m : List Rule)
    (h : evaluate_rules a rules = Except.ok (act, m)) :
    (∀ r : Rule, m.count r ≤ rules.count r) ∧
    (∃ l : List Rule, l.Sublist rules ∧ m.Perm l) ∧
    evaluate_rules a [] = Except.ok (noMatchAction, []) := by
  obtain ⟨hm, -, -⟩ := evaluate_rules_ok a rules act m h
  have hperm : m.Perm (rules.filter (ruleMatchesB a)) := hm ▸ sortByPriorityDesc_perm _
  refine ⟨?_, ⟨rules.filter (ruleMatchesB a), List.filter_sublist _, hperm⟩, rfl⟩
  intro r
  rw [hperm.count_eq]
  exact (List.filter_sublist _).count_le r

/-- Witness for C10: the REJECT applicant against the embedded rule set. -/
theorem C10_matched_subcollection_witness :
    (∀ r : Rule, ([ruleLowCgpa, ruleDisciplinary] : List Rule).count r ≤ RULES.count r) ∧
    (∃ l : List Rule, l.Sublist RULES ∧
      ([ruleLowCgpa, ruleDisciplinary] : List Rule).Perm l) ∧
    evaluate_rules applicantReject [] = Except.ok (noMatchAction, []) :=
  C10_matched_subcollection applicantReject RULES
    (Action.mk "REJECT" "CGPA below minimum scholarship requirement")
    [ruleLowCgpa, ruleDisciplinary] rfl

/-- Claim C4: in an exception-free evaluation with a non-empty matched list,
the first matched rule has maximal priority, it is the earliest rule of the
input collection among the matched rules of that maximal priority (so the
selected action, which C3 shows is its action, is the earliest-listed
top-priority match), and for every priority the equal-priority matched
rules keep their relative input order — the sort is stable. -/
theorem C4_stable_tie_break (a : Applicant) (rules : List Rule)
    (act : Action) (first : Rule) (rest : List Rule)
    (h : evaluate_rules a rules = Except.ok (act, first :: rest)) :
    (∀ r ∈ first :: rest, getPriority r ≤ getPriority first) ∧
    (rules.filter
      (fun r => ruleMatchesB a r && decide (getPriority r = getPriority first))).head? =
      some first ∧
    (∀ k : Int, (first :: rest).filter (fun r => decide (getPriority r = k)) =
      (rules.filter (ruleMatchesB a)).filter (fun r => decide (getPriority r = k))) := by
  obtain ⟨hm, -, -⟩ := evaluate_rules_ok a rules act (first :: rest) h
  have hsorted := sortByPriorityDesc_sorted (rules.filter (ruleMatchesB a))
  rw [← hm] at hsorted
  have hstable : ∀ k : Int,
      (first :: rest).filter (fun r => decide (getPriority r = k)) =
        (rules.filter (ruleMatchesB a)).filter (fun r => decide (getPriority r = k)) := by
    intro k
    rw [hm, sortByPriorityDesc_filter]
  refine ⟨?_, ?_, hstable⟩
  · intro r hr
    rcases List.mem_cons.mp hr with rfl | hr2
    · exact le_refl _
    · exact (List.pairwise_cons.mp hsorted).1 r hr2
  · have h1 := hstable (getPriority first)
    rw [List.filter_filter] at h1
    rw [show (fun r => ruleMatchesB a r && decide (getPriority r = getPriority first)) =
        (fun r => decide (getPriority r = getPriority first) && ruleMatchesB a r) from
      funext fun r => Bool.and_comm _ _]
    rw [← h1, List.filter_cons]
    simp

/-- Witness for C4: the REJECT applicant; the priority-95 rule heads the
matched list. -/
theorem C4_stable_tie_break_witness :
    (∀ r ∈ ([ruleLowCgpa, ruleDisciplinary] : List Rule),
      getPriority r ≤ getPriority ruleLowCgpa) ∧
    (RULES.filter
      (fun r => ruleMatchesB applicantReject r &&
        decide (getPriority r = getPriority ruleLowCgpa))).head? = some ruleLowCgpa ∧
    (∀ k : Int,
      ([ruleLowCgpa, ruleDisciplinary] : List Rule).filter
        (fun r => decide (getPriority r = k)) =
      (RULES.filter (ruleMatchesB applicantReject)).filter
        (fun r => decide (getPriority r = k))) :=
  C4_stable_tie_break applicantReject RULES
    (Action.mk "REJECT" "CGPA below minimum scholarship requirement")
    ruleLowCgpa [ruleDisciplinary] rfl

/-- Claim C6: if no rule's condition loop succeeds, `evaluate_rules` returns
the synthetic default action — decision `NO_MATCH` with the fixed
manual-review reason string — and an empty matched list. (The selected
action always carries a decision and a reason: `Action` consists of exactly
those two string fields, and every branch of `evaluate_rules` returns
either a rule's `Action` or `noMatchAction`.) -/
theorem C6_no_match_default (a : Applicant) (rules : List Rule)
    (h : ∀ r ∈ rules, eval_conds a (getConditions r) = Except.ok false) :
    evaluate_rules a rules = Except.ok (noMatchAction, []) ∧
    noMatchAction.decision = "NO_MATCH" ∧
    noMatchAction.reason =
      "No rule matched. Candidate requires manual review or different policy." := by
  refine ⟨?_, rfl, rfl⟩
  unfold evaluate_rules
  rw [collect_matched_none a rules h]
  rfl

/-- Witness for C6: the scenario-6 applicant matches no embedded rule. -/
theorem C6_no_match_default_witness :
    evaluate_rules applicantNone RULES = Except.ok (noMatchAction, []) ∧
    noMatchAction.decision = "NO_MATCH" ∧
    noMatchAction.reason =
      "No rule matched. Candidate requires manual review or different policy." :=
  C6_no_match_default applicantNone RULES (by intro r hr; fin_cases hr <;> rfl)

/-- Claim C7: a condition whose (string) field is absent from the applicant
mapping evaluates false, hence its rule does not match; on a well-formed
condition list the loop still completes without an exception, returning
`false` exactly as for a failed comparison. -/
theorem C7_missing_field_fails (a : Applicant) (r : Rule) (c : List Value)
    (f : String) (opv t : Value)
    (harity : ∀ c2 ∈ getConditions r, c2.length = 3)
    (hc : c ∈ getConditions r) (hceq : c = [Value.str f, opv, t])
    (hmiss : lookupA a f = none) :
    cond_true a c = false ∧ ruleMatchesB a r = false ∧
    eval_conds a (getConditions r) = Except.ok false := by
  have h1 : cond_true a c = false := by simp [cond_true, hceq, hmiss]
  have h2 : ruleMatchesB a r = false := by
    cases hb : ruleMatchesB a r
    · rfl
    · unfold ruleMatchesB at hb
      have := List.all_eq_true.mp hb c hc
      rw [h1] at this
      exact absurd this (by simp)
  refine ⟨h1, h2, ?_⟩
  rw [eval_conds_total a _ harity]
  exact congrArg Except.ok h2

/-- Witness for C7: the empty applicant and the "Need-based review" rule,
whose first condition reads the absent field `cgpa`. -/
theorem C7_missing_field_fails_witness :
    cond_true [] [Value.str "cgpa", Value.str ">=", Value.num (mkRat 25 10)] = false ∧
    ruleMatchesB [] ruleNeedBased = false ∧
    eval_conds [] (getConditions ruleNeedBased) = Except.ok false :=
  C7_missing_field_fails [] ruleNeedBased
    [Value.str "cgpa", Value.str ">=", Value.num (mkRat 25 10)]
    "cgpa" (Value.str ">=") (Value.num (mkRat 25 10))
    (by decide) (by decide) rfl rfl

/-- Claim C2: `eval_condition` computes the mathematically correct comparison
for each of the five supported operators on numbers, and equality on
strings; any operator outside the five, and any number/string
type-mismatched pair, yields `false`. Totality (never raising) holds by
construction: the source's `try/except` is the `none` branch of `pyCmpLt`,
and every branch returns a boolean. -/
theorem C2_eval_condition_correct :
    (∀ a b : ℚ,
      eval_condition (Value.num a) ">=" (Value.num b) = decide (a ≥ b) ∧
      eval_condition (Value.num a) "<=" (Value.num b) = decide (a ≤ b) ∧
      eval_condition (Value.num a) ">" (Value.num b) = decide (a > b) ∧
      eval_condition (Value.num a) "<" (Value.num b) = decide (a < b) ∧
      eval_condition (Value.num a) "==" (Value.num b) = decide (a = b)) ∧
    (∀ s t : String,
      eval_condition (Value.str s) "==" (Value.str t) = decide (s = t)) ∧
    (∀ (v t : Value) (op : String),
      op ∉ ([">=", "<=", ">", "<", "=="] : List String) →
      eval_condition v op t = false) ∧
    (∀ (q : ℚ) (s : String) (op : String),
      eval_condition (Value.num q) op (Value.str s) = false ∧
      eval_condition (Value.str s) op (Value.num q) = false) := by
  refine ⟨fun a b => ⟨?_, ?_, ?_, ?_, ?_⟩, fun s t => ?_, ?_, fun q s op => ?_⟩
  · show (!decide (a < b)) = decide (a ≥ b)
    simp [ge_iff_le, ← decide_not, not_lt]
  · show (!decide (b < a)) = decide (a ≤ b)
    simp [← decide_not, not_lt]
  · rfl
  · rfl
  · show decide (Value.num a = Value.num b) = decide (a = b)
    simp
  · show decide (Value.str s = Value.str t) = decide (s = t)
    simp
  · intro v t op hop
    simp only [List.mem_cons, List.not_mem_nil, or_false, not_or] at hop
    obtain ⟨h1, h2, h3, h4, h5⟩ := hop
    simp [eval_condition, h1, h2, h3, h4, h5]
  · constructor <;> simp [eval_condition, pyCmpLt]

/-- Witness for C2, applying it at concrete operators and operands. -/
theorem C2_eval_condition_correct_witness :
    eval_condition (Value.num 2) ">=" (Value.num 1) = decide ((2:ℚ) ≥ 1) ∧
    eval_condition (Value.num 1) "!=" (Value.num 1) = false ∧
    eval_condition (Value.num 1) ">" (Value.str "a") = false :=
  ⟨(C2_eval_condition_correct.1 2 1).1,
    C2_eval_condition_correct.2.2.1 (Value.num 1) (Value.num 1) "!=" (by decide),
    (C2_eval_condition_correct.2.2.2 1 "a" ">").1⟩

/-- Claim C8 counterexample: `evaluate_rules` is not exception-free on
arbitrary rule collections — a condition that is not a 3-element list makes
the tuple unpacking raise (`ValueError` in the source, an `Except.error`
here), so no `MatchResult` is produced. -/
theorem C8_counterexample :
    evaluate_rules []
      [Rule.mk "bad arity" (some 1) (some [[Value.str "x"]])
        (some (Action.mk "A" "B"))] =
      Except.error "ValueError: cannot unpack condition" := rfl

/-- Claim C8 amended: on rule collections whose conditions are all
3-element lists and whose rules all carry an `action`, evaluation is total:
it always produces a selected action and a matched list, with missing
fields, missing `priority`/`conditions` keys, unsupported operators and
incomparable values all degrading to "condition not satisfied". -/
theorem C8_total_on_wellformed (a : Applicant) (rules : List Rule)
    (h1 : ∀ r ∈ rules, ∀ c ∈ getConditions r, c.length = 3)
    (h2 : ∀ r ∈ rules, r.action.isSome = true) :
    ∃ act m, evaluate_rules a rules = Except.ok (act, m) := by
  unfold evaluate_rules
  rw [collect_matched_total a rules h1]
  show ∃ act m,
    (match sortByPriorityDesc (rules.filter (ruleMatchesB a)) with
      | first :: rest =>
        match first.action with
        | some act => Except.ok (act, first :: rest)
        | none => Except.error "KeyError: action"
      | [] => Except.ok (noMatchAction, [])) = Except.ok (act, m)
  rcases hs : sortByPriorityDesc (rules.filter (ruleMatchesB a)) with _ | ⟨first, rest⟩
  · exact ⟨noMatchAction, [], rfl⟩
  · have hfirst : first ∈ rules := by
      have hmem : first ∈ sortByPriorityDesc (rules.filter (ruleMatchesB a)) := by
        rw [hs]; exact List.mem_cons_self _ _
      exact List.mem_of_mem_filter ((sortByPriorityDesc_perm _).mem_iff.mp hmem)
    rcases ha : first.action with _ | act
    · have hsome := h2 first hfirst
      rw [ha] at hsome
      exact absurd hsome (by simp)
    · refine ⟨act, first :: rest, ?_⟩
      show (match first.action with
        | some act2 => Except.ok (act2, first :: rest)
        | none => Except.error "KeyError: action") = Except.ok (act, first :: rest)
      rw [ha]

/-- Witness for the amended C8: the embedded rule set is well-formed, so
evaluation of any applicant against it succeeds. -/
theorem C8_total_on_wellformed_witness :
    ∃ act m, evaluate_rules applicantReject RULES = Except.ok (act, m) :=
  C8_total_on_wellformed applicantReject RULES (by decide) (by decide)

/-- Claim C9 counterexample: for the scenario-5 applicant `{cgpa: 3.9,
co_curricular_score: 90, family_income: 3000, disciplinary_actions: 0}`,
the "Good candidate - partial scholarship" rule (priority 80) also matches
(3.9 ≥ 3.3, 90 ≥ 60, 3000 ≤ 12000, 0 ≤ 1), so `matchedRules` has three
rules, not exactly the claimed two. -/
theorem C9_counterexample :
    (evaluate_rules applicantScenario5 RULES).toOption.map
        (fun p => p.2.map Rule.name) =
      some ["Top merit candidate", "Good candidate - partial scholarship",
        "Need-based review"] ∧
    ¬ (evaluate_rules applicantScenario5 RULES).toOption.map
        (fun p => p.2.map Rule.name) =
      some ["Top merit candidate", "Need-based review"] := by
  constructor
  · rfl
  · decide

/-- Claim C9 amended: the scenario-5 applicant is awarded `AWARD_FULL` (the
priority-100 rule wins) and `matchedRules` is exactly the three rules
"Top merit candidate", "Good candidate - partial scholarship" and
"Need-based review", ordered by priority [100, 80, 70]. -/
theorem C9_scenario5_result :
    evaluate_rules applicantScenario5 RULES =
      Except.ok (Action.mk "AWARD_FULL"
          "Excellent academic & co-curricular performance, with acceptable need",
        [ruleTopMerit, ruleGoodCandidate, ruleNeedBased]) ∧
    [ruleTopMerit, ruleGoodCandidate, ruleNeedBased].map getPriority =
      [100, 80, 70] :=
  ⟨rfl, rfl⟩

end RBS
